import Mathlib

/-!
# SOAP client core: `Client.Call`

A shallow embedding of `client.go` (package `soap`).  The collaborators of
the client that live outside the package (encoding/xml, net/url, net/http,
net) are collected in `Env`; every effect of a call is recorded in an event
trace so that statements such as "the request was never sent" can be made.
-/

set_option autoImplicit false

namespace Soap

/-! ## Bytes, headers and requests (the part of net/http the client touches) -/

/-- Go's `[]byte`. -/
abbrev Bytes := List UInt8

/-- The test `validHeaderFieldByte` of net/textproto: the token characters of RFC 7230. -/
def validHeaderFieldByte (c : Char) : Bool :=
  let n := c.toNat
  (48 ≤ n && n ≤ 57) || (65 ≤ n && n ≤ 90) || (97 ≤ n && n ≤ 122) ||
  n == 33 || (35 ≤ n && n ≤ 39) || n == 42 || n == 43 || n == 45 || n == 46 ||
  n == 94 || n == 95 || n == 96 || n == 124 || n == 126

/-- The canonicalising loop of net/textproto: upper case for the first letter and for
every letter after a dash, lower case elsewhere. -/
def canonLoop : Bool → List Char → List Char
  | _, [] => []
  | upper, c :: cs =>
    let c1 :=
      if upper && 97 ≤ c.toNat && c.toNat ≤ 122 then Char.ofNat (c.toNat - 32)
      else if !upper && 65 ≤ c.toNat && c.toNat ≤ 90 then Char.ofNat (c.toNat + 32)
      else c
    c1 :: canonLoop (c1 == '-') cs

/-- The function `textproto.CanonicalMIMEHeaderKey`: a key with a byte that is not a
token character is returned unchanged. -/
def CanonicalMIMEHeaderKey (s : String) : String :=
  if s.data.all validHeaderFieldByte then String.mk (canonLoop true s.data) else s

/-- Go's `http.Header`, a `map[string][]string`, as an association list with unique keys. -/
abbrev Header := List (String × List String)

/-- Map index `h[k]`: `none` when the key is absent. -/
def Header.index (h : Header) (k : String) : Option (List String) :=
  match h with
  | [] => none
  | (k1, vs) :: t => if k1 = k then some vs else Header.index t k

/-- Map assignment `h[k] = vs`. -/
def Header.assign (h : Header) (k : String) (vs : List String) : Header :=
  (k, vs) :: h.filter (fun p => p.1 ≠ k)

/-- The method `Header.Add`: `h[key] = append(h[key], value)` at the canonical key. -/
def Header.Add (h : Header) (key value : String) : Header :=
  let k := CanonicalMIMEHeaderKey key
  h.assign k ((h.index k).getD [] ++ [value])

/-- The method `Header.Set`: `h[key] = []string{value}` at the canonical key. -/
def Header.Set (h : Header) (key value : String) : Header :=
  h.assign (CanonicalMIMEHeaderKey key) [value]

/-- The values stored under a header name, `none` when the request carries no such header. -/
def Header.lookup (h : Header) (key : String) : Option (List String) :=
  h.index (CanonicalMIMEHeaderKey key)

/-- The alphabet of `base64.StdEncoding`. -/
def encodeStd : List Char :=
  "ABCDEFGHIJKLMNOPQRSTUVWXYZabcdefghijklmnopqrstuvwxyz0123456789+/".data

/-- One character of the standard alphabet. -/
def b64Char (n : Nat) : Char := encodeStd.getD (n % 64) 'A'

/-- The function `base64.StdEncoding.EncodeToString` (with `=` padding). -/
def base64Std : List Nat → List Char
  | [] => []
  | [a] => [b64Char (a / 4), b64Char (a % 4 * 16), '=', '=']
  | [a, b] => [b64Char (a / 4), b64Char (a % 4 * 16 + b / 16), b64Char (b % 16 * 4), '=']
  | a :: b :: c :: rest =>
    b64Char (a / 4) :: b64Char (a % 4 * 16 + b / 16) :: b64Char (b % 16 * 4 + c / 64) ::
      b64Char (c % 64) :: base64Std rest

/-- The bytes of a Go string (UTF-8). -/
def stringBytes (s : String) : List Nat :=
  s.data.flatMap (fun c => (String.utf8EncodeChar c).map UInt8.toNat)

/-- The helper `basicAuth` of net/http: base64 of `username + ":" + password`. -/
def basicAuth (username password : String) : String :=
  String.mk (base64Std (stringBytes (username ++ ":" ++ password)))

/-- The six-bit value that RFC 4648 (table 1) gives to a character of the base64
alphabet: `A` to `Z` are 0 to 25, `a` to `z` are 26 to 51, the digits are 52 to 61,
`+` is 62 and `/` is 63. -/
def b64Value (c : Char) : Option Nat :=
  let n := c.toNat
  if 65 ≤ n ∧ n ≤ 90 then some (n - 65)
  else if 97 ≤ n ∧ n ≤ 122 then some (n - 71)
  else if 48 ≤ n ∧ n ≤ 57 then some (n + 4)
  else if n = 43 then some 62
  else if n = 47 then some 63
  else none

/-- Strict base64 decoding after RFC 4648: groups of four characters, each group giving
three bytes; only the last group may end in one or two `=`, and the bits it leaves unused
must be zero.  Text that is not padded base64 is rejected. -/
def decodeStd : List Char → Option (List Nat)
  | [] => some []
  | c1 :: c2 :: c3 :: c4 :: rest =>
    match b64Value c1, b64Value c2 with
    | some v1, some v2 =>
      if c3 = '=' then
        if c4 = '=' ∧ rest = [] ∧ v2 % 16 = 0 then some [v1 * 4 + v2 / 16] else none
      else
        match b64Value c3 with
        | none => none
        | some v3 =>
          if c4 = '=' then
            if rest = [] ∧ v3 % 4 = 0 then some [v1 * 4 + v2 / 16, v2 % 16 * 16 + v3 / 4]
            else none
          else
            match b64Value c4 with
            | none => none
            | some v4 =>
              (decodeStd rest).map (fun t =>
                (v1 * 4 + v2 / 16) :: (v2 % 16 * 16 + v3 / 4) :: (v3 % 4 * 64 + v4) :: t)
    | _, _ => none
  | _ => none

/-- The shape of `http.Request` that `Call` fills in. -/
structure Request where
  Method : String
  URL : String
  Header : Header
  Body : Bytes
  Close : Bool
deriving DecidableEq

/-- The method `Request.SetBasicAuth`: sets the Authorization header. -/
def Request.SetBasicAuth (r : Request) (username password : String) : Request :=
  { r with Header := r.Header.Set "Authorization" ("Basic " ++ basicAuth username password) }

/-- The result of dialling a connection. -/
inductive DialOutcome (E : Type)
  | conn (remote : String)
  | fail (e : E)

/-- The connection hooks of `http.Transport`; an unset hook is `none`. -/
structure Transport (E : Type) where
  Dial : Option (String → String → DialOutcome E)
  DialContext : Option (String → String → DialOutcome E)

/-- A response body stream, given by what reading it to the end yields. -/
structure ReadCloser (E : Type) where
  data : Bytes
  err : Option E
deriving DecidableEq

/-- The function `ioutil.ReadAll`: the bytes read and the error that stopped the read. -/
def ReadAll {E : Type} (b : ReadCloser E) : Bytes × Option E := (b.data, b.err)

/-- The part of `http.Response` a caller can inspect, and its body stream. -/
structure Response (E : Type) where
  StatusCode : Nat
  Header : Header
  Body : ReadCloser E
deriving DecidableEq

/-- The two results of `http.Client.Do`: a response with a nil error, or an error
(with which a response is present only when a redirect check failed). -/
inductive DoResult (E : Type)
  | ok (r : Response E)
  | fail (r : Option (Response E)) (e : E)
deriving DecidableEq

/-! ## The envelope -/

/-- Modelled from the spec: the Fault type is declared outside client.go; it carries
a fault code, a fault reason, and the optional actor and detail. -/
structure Fault where
  Code : String
  Reason : String
  Actor : String
  Detail : String
deriving DecidableEq

/-- Modelled from the spec: the Body type is declared outside client.go; it holds
the payload (the field Content) and the Fault slot. -/
structure Body (C : Type) where
  Fault : Option Fault
  Content : C
deriving DecidableEq

/-- Modelled from the spec: the Envelope type is declared outside client.go; it has
exactly one Body. -/
structure Envelope (C : Type) where
  Body : Body C
deriving DecidableEq

/-- Go's `error` values that `Call` can return: an error produced by a collaborator
(codec, net/url, net/http, ioutil, encoding/xml), or a `*Fault` used as an error. -/
inductive CallError (E : Type)
  | lib (e : E)
  | fault (f : Fault)
deriving DecidableEq

/-! ## Package state and the client -/

/-- The package variables `ClientDialTimeout` (nanoseconds), `UserAgent` and `Verbose`. -/
structure Globals where
  ClientDialTimeout : Nat
  UserAgent : String
  Verbose : Bool
deriving DecidableEq

/-- The initial values of the package variables. -/
def Globals.initial : Globals :=
  { ClientDialTimeout := 30 * 1000000000, UserAgent := "go-soap-0.1", Verbose := false }

/-- The interface `XMLMarshaller`; `Unmarshal` works on the envelope its second
argument points to and yields the envelope as it leaves it. -/
structure XMLMarshaller (Q R E : Type) where
  Marshal : Envelope Q → Bytes × Option E
  Unmarshal : Bytes → Envelope R → Envelope R × Option E

/-- The collaborators outside the package. -/
structure Env (Q R E : Type) where
  /-- The function `xml.Marshal`. -/
  xmlMarshal : Envelope Q → Bytes × Option E
  /-- The function `xml.Unmarshal`. -/
  xmlUnmarshal : Bytes → Envelope R → Envelope R × Option E
  /-- The error, if any, of `url.Parse`. -/
  urlParse : String → Option E
  /-- The call `(&http.Client{Transport: tr}).Do(req)`. -/
  clientDo : Transport E → Request → DoResult E
  /-- The variable `http.DefaultTransport`. -/
  DefaultTransport : Transport E
  /-- The function `net.DialTimeout`. -/
  netDialTimeout : String → String → Nat → DialOutcome E

/-- The type `defaultMarshaller` with its two methods, as built by `newDefaultMarshaller`. -/
def newDefaultMarshaller {Q R E : Type} (env : Env Q R E) : XMLMarshaller Q R E :=
  { Marshal := fun v => env.xmlMarshal v
    Unmarshal := fun xmlBytes v => env.xmlUnmarshal xmlBytes v }

/-- The function `dialTimeout`. -/
def dialTimeout {Q R E : Type} (env : Env Q R E) (g : Globals) (network addr : String) :
    DialOutcome E :=
  env.netDialTimeout network addr g.ClientDialTimeout

/-- The type `BasicAuth`. -/
structure BasicAuth where
  Login : String
  Password : String
deriving DecidableEq

/-- The type `Client`. -/
structure Client (Q R E : Type) where
  url : String
  tls : Bool
  auth : Option BasicAuth
  tr : Option (Transport E)
  Marshaller : XMLMarshaller Q R E

/-- The constructor `NewClient`. -/
def NewClient {Q R E : Type} (env : Env Q R E) (url : String) (auth : Option BasicAuth)
    (tr : Option (Transport E)) : Client Q R E :=
  { url := url, tls := false, auth := auth, tr := tr, Marshaller := newDefaultMarshaller env }

/-- The function `http.NewRequest` for a valid method (the client passes the constant
POST): it fails when the URL does not parse, and otherwise yields a request with an
empty header map. -/
def NewRequest {Q R E : Type} (env : Env Q R E) (method url : String) (body : Bytes) :
    Except E Request :=
  match env.urlParse url with
  | some e => .error e
  | none => .ok { Method := method, URL := url, Header := [], Body := body, Close := false }

/-! ## Effects -/

/-- An argument of a log line. -/
inductive LogArg
  | str (s : String)
  | bytes (b : Bytes)
deriving DecidableEq

/-- What a call does, in order. -/
inductive Event (E : Type)
  | log (m : List LogArg)
  | marshal
  | newRequest (url : String)
  | clientDo (tr : Transport E) (req : Request)
  | readAll
  | unmarshal (raw : Bytes)
  | close

/-- The function `l`: a log line when `Verbose` is set. -/
def l {E : Type} (g : Globals) (m : List LogArg) : List (Event E) :=
  if g.Verbose then [Event.log m] else []

/-- The results of `Call` (the transport response and the error), the response target
as the call leaves it, and the effects of the call. -/
structure Outcome (R E : Type) where
  httpResponse : Option (Response E)
  err : Option (CallError E)
  response : R
  events : List (Event E)

/-- Lines 93 to 104 of `Call`: the credentials, the headers and the close flag are put
on the request that `http.NewRequest` returned. -/
def Client.fill {Q R E : Type} (g : Globals) (s : Client Q R E) (soapAction : String)
    (req0 : Request) : Request :=
  let req1 :=
    match s.auth with
    | some a => req0.SetBasicAuth a.Login a.Password
    | none => req0
  let req2 := { req1 with Header := req1.Header.Add "Content-Type" "text/xml; charset=\"utf-8\"" }
  let req3 := { req2 with Header := req2.Header.Set "User-Agent" g.UserAgent }
  let req4 :=
    if soapAction ≠ "" then { req3 with Header := req3.Header.Add "SOAPAction" soapAction }
    else req3
  { req4 with Close := true }

/-- Lines 105 to 108 of `Call`: the transport of the client, or `http.DefaultTransport`
when the client has none. -/
def Client.transport {Q R E : Type} (env : Env Q R E) (s : Client Q R E) : Transport E :=
  match s.tr with
  | some t => t
  | none => env.DefaultTransport

/-- The method `Client.Call`. -/
def Client.Call {Q R E : Type} (env : Env Q R E) (g : Globals) (s : Client Q R E)
    (soapAction : String) (request : Q) (response : R) : Outcome R E :=
  let envelope : Envelope Q := { Body := { Fault := none, Content := request } }
  match s.Marshaller.Marshal envelope with
  | (_, some e) => ⟨none, some (.lib e), response, [.marshal]⟩
  | (xmlBytes, none) =>
    match NewRequest env "POST" s.url xmlBytes with
    | .error e => ⟨none, some (.lib e), response, [.marshal, .newRequest s.url]⟩
    | .ok req0 =>
      let req := s.fill g soapAction req0
      let tr := s.transport env
      let sent : List (Event E) :=
        [.marshal, .newRequest s.url] ++
          l g [.str "POST to", .str s.url, .str "with", .bytes xmlBytes] ++ [.clientDo tr req]
      match env.clientDo tr req with
      | .fail r e => ⟨r, some (.lib e), response, sent⟩
      | .ok httpResponse =>
        match ReadAll httpResponse.Body with
        | (_, some e) => ⟨some httpResponse, some (.lib e), response, sent ++ [.readAll, .close]⟩
        | (rawbody, none) =>
          if rawbody.length = 0 then
            ⟨some httpResponse, none, response,
              sent ++ [.readAll] ++ l g [.str "empty response"] ++ [.close]⟩
          else
            let read : List (Event E) :=
              sent ++ [.readAll] ++ l g [.str "response", .bytes rawbody] ++ [.unmarshal rawbody]
            match env.xmlUnmarshal rawbody { Body := { Fault := none, Content := response } } with
            | (respEnvelope, some e) =>
              ⟨some httpResponse, some (.lib e), respEnvelope.Body.Content, read ++ [.close]⟩
            | (respEnvelope, none) =>
              match respEnvelope.Body.Fault with
              | some fault =>
                ⟨some httpResponse, some (.fault fault), respEnvelope.Body.Content, read ++ [.close]⟩
              | none => ⟨some httpResponse, none, respEnvelope.Body.Content, read ++ [.close]⟩

/-- The number of times a trace hands a request to the transport. -/
def dispatchCount {E : Type} : List (Event E) → Nat
  | [] => 0
  | .clientDo _ _ :: t => dispatchCount t + 1
  | _ :: t => dispatchCount t

/-- Whether an event is the building or the sending of an HTTP request. -/
def Event.isRequest {E : Type} : Event E → Bool
  | .newRequest _ => true
  | .clientDo _ _ => true
  | _ => false

/-- Whether an event reads or deserializes a response body. -/
def Event.isBodyUse {E : Type} : Event E → Bool
  | .readAll => true
  | .unmarshal _ => true
  | _ => false

/-- Whether an event is a deserialization. -/
def Event.isUnmarshal {E : Type} : Event E → Bool
  | .unmarshal _ => true
  | _ => false

/-! ## A small concrete service, used to run the definitions -/

/-- The bytes of a string literal. -/
def lit (s : String) : Bytes := (stringBytes s).map UInt8.ofNat

/-- A fault as a service reports a bad request. -/
def demoFault : Fault := { Code := "Client", Reason := "Invalid request", Actor := "", Detail := "" }

/-- A stand-in for `xml.Marshal`: the empty payload cannot be encoded. -/
def demoMarshal (v : Envelope String) : Bytes × Option String :=
  if v.Body.Content = "" then ([], some "xml: unsupported type")
  else (lit v.Body.Content, none)

/-- A stand-in for `xml.Unmarshal`: a document that starts with `<F` carries a fault (and
half a payload), another one that starts with `<` carries a payload, anything else is
rejected. -/
def demoUnmarshal (raw : Bytes) (v : Envelope String) : Envelope String × Option String :=
  match raw with
  | 60 :: 70 :: _ => ({ Body := { Fault := some demoFault, Content := "half" } }, none)
  | 60 :: _ => ({ Body := { Fault := none, Content := "pong" } }, none)
  | _ => (v, some "XML syntax error")

/-- A stand-in for the network: the answer depends on the endpoint. -/
def demoDo (_tr : Transport String) (req : Request) : DoResult String :=
  if req.URL = "http://svc/ok" then .ok ⟨200, [], ⟨lit "<pong/>", none⟩⟩
  else if req.URL = "http://svc/fault" then .ok ⟨500, [], ⟨lit "<Fault/>", none⟩⟩
  else if req.URL = "http://svc/empty" then .ok ⟨204, [], ⟨[], none⟩⟩
  else if req.URL = "http://svc/garbage" then .ok ⟨200, [], ⟨lit "not xml", none⟩⟩
  else if req.URL = "http://svc/reset" then .ok ⟨200, [], ⟨lit "<po", some "unexpected EOF"⟩⟩
  else .fail none "connection refused"

/-- The value of `http.DefaultTransport` in net/http: `Dial` is unset, connections are
made by the `DialContext` of a `net.Dialer`. -/
def demoDefaultTransport : Transport String :=
  { Dial := none, DialContext := some (fun _ addr => .conn addr) }

/-- The concrete collaborators. -/
def demoEnv : Env String String String :=
  { xmlMarshal := demoMarshal
    xmlUnmarshal := demoUnmarshal
    urlParse := fun u => if u = "::" then some "missing protocol scheme" else none
    clientDo := demoDo
    DefaultTransport := demoDefaultTransport
    netDialTimeout := fun _ addr _ => .conn addr }

/-- A custom codec: it encodes like the default one and decodes every document to a
fixed payload, without error. -/
def lenientCodec : XMLMarshaller String String String :=
  { Marshal := demoMarshal
    Unmarshal := fun _ _ => ({ Body := { Fault := none, Content := "decoded by the codec" } }, none) }

/-- A client of the concrete service. -/
def demoClient (path : String) (auth : Option BasicAuth) : Client String String String :=
  NewClient demoEnv ("http://svc/" ++ path) auth none

/-- The package variables with the dial timeout lowered to one second. -/
def oneSecond : Globals := { Globals.initial with ClientDialTimeout := 1000000000 }

/-- The transports and requests of a trace, in order. -/
def dispatched {E : Type} : List (Event E) → List (Transport E × Request)
  | [] => []
  | .clientDo t req :: rest => (t, req) :: dispatched rest
  | _ :: rest => dispatched rest

/-! ## Lemmas on traces -/

theorem dispatchCount_append {E : Type} (a b : List (Event E)) :
    dispatchCount (a ++ b) = dispatchCount a + dispatchCount b := by
  induction a with
  | nil => simp [dispatchCount]
  | cons e t ih => cases e <;> simp [dispatchCount, ih]; omega

theorem dispatchCount_l {E : Type} (g : Globals) (m : List LogArg) :
    dispatchCount (l g m : List (Event E)) = 0 := by
  unfold l
  split <;> simp [dispatchCount]

theorem mem_l {E : Type} (g : Globals) (m : List LogArg) (e : Event E) (h : e ∈ l g m) :
    e = Event.log m := by
  unfold l at h
  split at h <;> simp at h
  exact h

theorem clientDo_not_mem_l {E : Type} (g : Globals) (m : List LogArg) (t : Transport E)
    (req : Request) : Event.clientDo t req ∈ (l g m : List (Event E)) ↔ False := by
  constructor
  · intro h
    have := mem_l g m _ h
    cases this
  · intro h
    exact h.elim

/-! ## Lemmas on headers -/

theorem Header.index_filter_ne (h : Header) (k k1 : String) (hne : k ≠ k1) :
    Header.index (h.filter (fun p => p.1 ≠ k)) k1 = Header.index h k1 := by
  induction h with
  | nil => rfl
  | cons p t ih =>
    obtain ⟨a, vs⟩ := p
    simp only [ne_eq, decide_not] at ih ⊢
    by_cases ha : a = k
    · subst ha
      simp [List.filter_cons, Header.index, hne, ih]
    · simp [List.filter_cons, Header.index, ha, ih]

theorem Header.index_assign (h : Header) (k k1 : String) (vs : List String) :
    Header.index (Header.assign h k vs) k1 = if k = k1 then some vs else Header.index h k1 := by
  by_cases hk : k = k1
  · simp [Header.assign, Header.index, hk]
  · have := Header.index_filter_ne h k k1 hk
    simp only [ne_eq, decide_not] at this
    simp [Header.assign, Header.index, hk, this]

theorem canon_SOAPAction : CanonicalMIMEHeaderKey "SOAPAction" = "Soapaction" := by decide

theorem canon_ContentType : CanonicalMIMEHeaderKey "Content-Type" = "Content-Type" := by decide

theorem canon_UserAgent : CanonicalMIMEHeaderKey "User-Agent" = "User-Agent" := by decide

theorem canon_Authorization : CanonicalMIMEHeaderKey "Authorization" = "Authorization" := by
  decide

/-- The SOAPAction entry of the request that `Call` fills in, starting from the empty
header map of a new request. -/
theorem fill_lookup_SOAPAction {Q R E : Type} (g : Globals) (s : Client Q R E)
    (soapAction method url : String) (body : Bytes) (close : Bool) :
    (s.fill g soapAction ⟨method, url, [], body, close⟩).Header.lookup "SOAPAction"
      = if soapAction = "" then none else some [soapAction] := by
  have h1 : ("User-Agent" = "Soapaction") = False := by decide
  have h2 : ("Content-Type" = "Soapaction") = False := by decide
  have h3 : ("Authorization" = "Soapaction") = False := by decide
  by_cases ha : soapAction = "" <;> cases hauth : s.auth <;>
    simp [Client.fill, Request.SetBasicAuth, Header.lookup, Header.Add, Header.Set,
      Header.index_assign, canon_SOAPAction, canon_ContentType, canon_UserAgent,
      canon_Authorization, ha, hauth, h1, h2, h3, Header.index]

/-- The Authorization entry of the request that `Call` fills in, starting from the
empty header map of a new request. -/
theorem fill_lookup_Authorization {Q R E : Type} (g : Globals) (s : Client Q R E)
    (soapAction method url : String) (body : Bytes) (close : Bool) :
    (s.fill g soapAction ⟨method, url, [], body, close⟩).Header.lookup "Authorization"
      = s.auth.map (fun a => ["Basic " ++ basicAuth a.Login a.Password]) := by
  have h1 : ("User-Agent" = "Authorization") = False := by decide
  have h2 : ("Content-Type" = "Authorization") = False := by decide
  have h3 : ("Soapaction" = "Authorization") = False := by decide
  by_cases ha : soapAction = "" <;> cases hauth : s.auth <;>
    simp [Client.fill, Request.SetBasicAuth, Header.lookup, Header.Add, Header.Set,
      Header.index_assign, canon_SOAPAction, canon_ContentType, canon_UserAgent,
      canon_Authorization, ha, hauth, h1, h2, h3, Header.index]

/-! ## What `Call` hands to the transport -/

/-- Every request in the trace of a call is the filled-in POST request for some
marshalled bytes, and goes to the transport selected for the client. -/
theorem Call_sent {Q R E : Type} (env : Env Q R E) (g : Globals) (s : Client Q R E)
    (soapAction : String) (request : Q) (response : R) (t : Transport E) (req : Request)
    (h : Event.clientDo t req ∈ (s.Call env g soapAction request response).events) :
    ∃ xmlBytes : Bytes, t = s.transport env ∧
      req = s.fill g soapAction ⟨"POST", s.url, [], xmlBytes, false⟩ := by
  unfold Client.Call NewRequest at h
  rcases hm : s.Marshaller.Marshal { Body := { Fault := none, Content := request } }
    with ⟨xmlBytes, _ | e⟩
  · refine ⟨xmlBytes, ?_⟩
    simp only [hm] at h
    cases hu : env.urlParse s.url with
    | some e => simp [hu] at h
    | none =>
      simp only [hu] at h
      repeat' split at h
      all_goals
        simp only [List.mem_append, List.mem_cons, List.mem_singleton, List.not_mem_nil,
          clientDo_not_mem_l, or_false, false_or, reduceCtorEq, Event.clientDo.injEq] at h
        exact h
  · simp [hm] at h

/-- A call hands at most one request to the transport. -/
theorem Call_dispatchCount_le {Q R E : Type} (env : Env Q R E) (g : Globals) (s : Client Q R E)
    (soapAction : String) (request : Q) (response : R) :
    dispatchCount (s.Call env g soapAction request response).events ≤ 1 := by
  unfold Client.Call NewRequest
  rcases hm : s.Marshaller.Marshal { Body := { Fault := none, Content := request } }
    with ⟨xmlBytes, _ | e⟩
  · simp only [hm]
    cases hu : env.urlParse s.url with
    | some e => simp [dispatchCount]
    | none =>
      simp only []
      repeat' split
      all_goals simp [dispatchCount, dispatchCount_append, dispatchCount_l]
  · simp [hm, dispatchCount]

/-! ## The exits of `Call` after a successful dispatch -/

/-- C1: when the transport succeeds, the body is read in full and is not empty, and
deserialization succeeds leaving a fault in the envelope, `Call` returns that fault as its
error together with the transport response, whatever content deserialization wrote into
the response target. -/
theorem Call_fault_is_error {Q R E : Type} (env : Env Q R E) (g : Globals) (s : Client Q R E)
    (soapAction : String) (request : Q) (response : R) (xmlBytes rawbody : Bytes)
    (r : Response E) (respEnvelope : Envelope R) (fault : Fault)
    (hm : s.Marshaller.Marshal { Body := { Fault := none, Content := request } } = (xmlBytes, none))
    (hu : env.urlParse s.url = none)
    (hd : env.clientDo (s.transport env)
      (s.fill g soapAction ⟨"POST", s.url, [], xmlBytes, false⟩) = .ok r)
    (hr : ReadAll r.Body = (rawbody, none))
    (hlen : rawbody.length ≠ 0)
    (hx : env.xmlUnmarshal rawbody { Body := { Fault := none, Content := response } }
      = (respEnvelope, none))
    (hf : respEnvelope.Body.Fault = some fault) :
    (s.Call env g soapAction request response).err = some (CallError.fault fault) ∧
    (s.Call env g soapAction request response).err ≠ none ∧
    (s.Call env g soapAction request response).httpResponse = some r ∧
    (s.Call env g soapAction request response).response = respEnvelope.Body.Content := by
  simp [Client.Call, NewRequest, hm, hu, hd, hr, hlen, hx, hf]

/-- C2: when the transport returns a response whose body reads as zero bytes, `Call`
returns that response with a nil error, deserializes nothing, and leaves the response
target as it was. -/
theorem Call_empty_body {Q R E : Type} (env : Env Q R E) (g : Globals) (s : Client Q R E)
    (soapAction : String) (request : Q) (response : R) (xmlBytes rawbody : Bytes)
    (r : Response E)
    (hm : s.Marshaller.Marshal { Body := { Fault := none, Content := request } } = (xmlBytes, none))
    (hu : env.urlParse s.url = none)
    (hd : env.clientDo (s.transport env)
      (s.fill g soapAction ⟨"POST", s.url, [], xmlBytes, false⟩) = .ok r)
    (hr : ReadAll r.Body = (rawbody, none))
    (hlen : rawbody.length = 0) :
    (s.Call env g soapAction request response).httpResponse = some r ∧
    (s.Call env g soapAction request response).err = none ∧
    (s.Call env g soapAction request response).response = response ∧
    ∀ ev ∈ (s.Call env g soapAction request response).events, ev.isUnmarshal = false := by
  simp only [Client.Call, NewRequest, hm, hu, hd, hr, hlen, if_true, true_and]
  intro ev hev
  simp only [List.mem_append, List.mem_cons, List.mem_singleton, List.not_mem_nil, or_false,
    or_assoc] at hev
  rcases hev with h | h | h | h | h | h | h
  all_goals first
    | (subst h; rfl)
    | (rw [mem_l g _ ev h]; rfl)

/-- C3: when the body is read in full, is not empty, and `xml.Unmarshal` rejects it with
error `e`, `Call` returns `e` itself: the error is not nil and is not a fault, even when
the rejected document left a fault in the envelope. -/
theorem Call_malformed_body {Q R E : Type} (env : Env Q R E) (g : Globals) (s : Client Q R E)
    (soapAction : String) (request : Q) (response : R) (xmlBytes rawbody : Bytes)
    (r : Response E) (respEnvelope : Envelope R) (e : E)
    (hm : s.Marshaller.Marshal { Body := { Fault := none, Content := request } } = (xmlBytes, none))
    (hu : env.urlParse s.url = none)
    (hd : env.clientDo (s.transport env)
      (s.fill g soapAction ⟨"POST", s.url, [], xmlBytes, false⟩) = .ok r)
    (hr : ReadAll r.Body = (rawbody, none))
    (hlen : rawbody.length ≠ 0)
    (hx : env.xmlUnmarshal rawbody { Body := { Fault := none, Content := response } }
      = (respEnvelope, some e)) :
    (s.Call env g soapAction request response).err = some (CallError.lib e) ∧
    (s.Call env g soapAction request response).err ≠ none ∧
    ∀ f : Fault, (s.Call env g soapAction request response).err ≠ some (CallError.fault f) := by
  simp [Client.Call, NewRequest, hm, hu, hd, hr, hlen, hx]

/-- C5: when the codec fails to marshal the envelope that wraps the request, with error
`e`, `Call` returns `e` with a nil transport response; no HTTP request is built and none
is handed to the transport. -/
theorem Call_marshal_failure {Q R E : Type} (env : Env Q R E) (g : Globals) (s : Client Q R E)
    (soapAction : String) (request : Q) (response : R) (xmlBytes : Bytes) (e : E)
    (hm : s.Marshaller.Marshal { Body := { Fault := none, Content := request } }
      = (xmlBytes, some e)) :
    (s.Call env g soapAction request response).err = some (CallError.lib e) ∧
    (s.Call env g soapAction request response).httpResponse = none ∧
    dispatchCount (s.Call env g soapAction request response).events = 0 ∧
    ∀ ev ∈ (s.Call env g soapAction request response).events, ev.isRequest = false := by
  simp [Client.Call, hm, dispatchCount, Event.isRequest]

/-- C8: once the dispatch has succeeded with response `r`, `Call` returns `r` as its first
result, whatever happens to the body afterwards. -/
theorem Call_returns_response {Q R E : Type} (env : Env Q R E) (g : Globals) (s : Client Q R E)
    (soapAction : String) (request : Q) (response : R) (xmlBytes : Bytes) (r : Response E)
    (hm : s.Marshaller.Marshal { Body := { Fault := none, Content := request } } = (xmlBytes, none))
    (hu : env.urlParse s.url = none)
    (hd : env.clientDo (s.transport env)
      (s.fill g soapAction ⟨"POST", s.url, [], xmlBytes, false⟩) = .ok r) :
    (s.Call env g soapAction request response).httpResponse = some r := by
  simp only [Client.Call, NewRequest, hm, hu, hd]
  rcases hr : ReadAll r.Body with ⟨rawbody, _ | e⟩
  · by_cases hlen : rawbody.length = 0
    · simp [hlen]
    · simp only [hlen, if_false]
      rcases hx : env.xmlUnmarshal rawbody { Body := { Fault := none, Content := response } }
        with ⟨respEnvelope, _ | e⟩
      · cases hf : respEnvelope.Body.Fault <;> simp [hf]
      · simp
  · simp

/-! ## Base64: the encoder against the decoder of RFC 4648 -/

set_option maxRecDepth 100000

/-- The decoder reads every character of the encoder's alphabet as its index. -/
theorem b64Value_b64Char : ∀ n, n < 64 → b64Value (b64Char n) = some n := by decide

/-- No character of the encoder's alphabet is the padding character. -/
theorem b64Char_ne_pad : ∀ n, n < 64 → (b64Char n = '=') = False := by decide

/-- Strict decoding recovers the bytes that `base64Std` encoded. -/
theorem decodeStd_base64Std : ∀ bs : List Nat, (∀ b ∈ bs, b < 256) →
    decodeStd (base64Std bs) = some bs
  | [], _ => by simp [base64Std, decodeStd]
  | [a], h => by
    have ha : a < 256 := h a (by simp)
    have h1 : a / 4 < 64 := by omega
    have h2 : a % 4 * 16 < 64 := by omega
    simp only [base64Std, decodeStd, b64Value_b64Char _ h1, b64Value_b64Char _ h2]
    have e1 : a % 4 * 16 % 16 = 0 := by omega
    simp [e1]
    omega
  | [a, b], h => by
    have ha : a < 256 := h a (by simp)
    have hb : b < 256 := h b (by simp)
    have h1 : a / 4 < 64 := by omega
    have h2 : a % 4 * 16 + b / 16 < 64 := by omega
    have h3 : b % 16 * 4 < 64 := by omega
    simp only [base64Std, decodeStd, b64Value_b64Char _ h1, b64Value_b64Char _ h2,
      b64Value_b64Char _ h3, b64Char_ne_pad _ h3]
    have e1 : b % 16 * 4 % 4 = 0 := by omega
    simp [e1]
    omega
  | a :: b :: c :: rest, h => by
    have ha : a < 256 := h a (by simp)
    have hb : b < 256 := h b (by simp)
    have hc : c < 256 := h c (by simp)
    have ih := decodeStd_base64Std rest (fun x hx => h x (by simp [hx]))
    have h1 : a / 4 < 64 := by omega
    have h2 : a % 4 * 16 + b / 16 < 64 := by omega
    have h3 : b % 16 * 4 + c / 64 < 64 := by omega
    have h4 : c % 64 < 64 := by omega
    simp only [base64Std, decodeStd, b64Value_b64Char _ h1, b64Value_b64Char _ h2,
      b64Value_b64Char _ h3, b64Value_b64Char _ h4, b64Char_ne_pad _ h3, b64Char_ne_pad _ h4, ih]
    simp
    omega

/-- The bytes of a string are bytes. -/
theorem stringBytes_lt (s : String) : ∀ b ∈ stringBytes s, b < 256 := by
  intro b hb
  simp only [stringBytes, List.mem_flatMap, List.mem_map] at hb
  obtain ⟨c, -, x, -, rfl⟩ := hb
  exact x.val.isLt

/-- The credentials that `basicAuth` encodes are read back by strict decoding. -/
theorem decodeStd_basicAuth (username password : String) :
    decodeStd (basicAuth username password).data
      = some (stringBytes (username ++ ":" ++ password)) :=
  decodeStd_base64Std _ (stringBytes_lt _)

/-- The test vectors of RFC 4648, section 10. -/
theorem base64Std_vectors :
    String.mk (base64Std (stringBytes "")) = "" ∧
    String.mk (base64Std (stringBytes "f")) = "Zg==" ∧
    String.mk (base64Std (stringBytes "fo")) = "Zm8=" ∧
    String.mk (base64Std (stringBytes "foo")) = "Zm9v" ∧
    String.mk (base64Std (stringBytes "foob")) = "Zm9vYg==" ∧
    String.mk (base64Std (stringBytes "fooba")) = "Zm9vYmE=" ∧
    String.mk (base64Std (stringBytes "foobar")) = "Zm9vYmFy" := by
  decide

/-- Strict decoding rejects text without padding and text with stray bits. -/
theorem decodeStd_rejects :
    decodeStd "QWxhZGRpbjpvcGVuIHNlc2FtZQ".data = none ∧
    decodeStd "Zm9=".data = none ∧
    decodeStd "Zg=a".data = none ∧
    decodeStd "Zm8=".data = some [102, 111] := by
  decide

/-! ## The request on the wire -/

/-- C6: a request that `Call` hands to the transport carries a SOAPAction header exactly
when the operation identifier is not empty, and then the header has the identifier as its
only value. -/
theorem Call_SOAPAction_header {Q R E : Type} (env : Env Q R E) (g : Globals)
    (s : Client Q R E) (soapAction : String) (request : Q) (response : R)
    (t : Transport E) (req : Request)
    (h : Event.clientDo t req ∈ (s.Call env g soapAction request response).events) :
    (req.Header.lookup "SOAPAction" ≠ none ↔ soapAction ≠ "") ∧
    (soapAction ≠ "" → req.Header.lookup "SOAPAction" = some [soapAction]) := by
  obtain ⟨xmlBytes, -, hreq⟩ := Call_sent env g s soapAction request response t req h
  subst hreq
  rw [fill_lookup_SOAPAction]
  by_cases ha : soapAction = "" <;> simp [ha]

/-- C7: for a client built by `NewClient url auth tr` (whatever codec was put in its
Marshaller field afterwards), a request that `Call` hands to the transport carries, when
`auth` is present, exactly one Authorization value: the word Basic, a blank, and text
that strict base64 decoding (RFC 4648) reads back as the bytes of login, a colon and
password; when `auth` is absent it carries no Authorization header. -/
theorem Call_Authorization_header {Q R E : Type} (env : Env Q R E) (g : Globals)
    (url : String) (auth : Option BasicAuth) (tr : Option (Transport E))
    (m : XMLMarshaller Q R E) (soapAction : String) (request : Q) (response : R)
    (t : Transport E) (req : Request)
    (h : Event.clientDo t req ∈
      (Client.Call env g { NewClient env url auth tr with Marshaller := m }
        soapAction request response).events) :
    match auth with
    | some a =>
      ∃ enc : List Char,
        req.Header.lookup "Authorization" = some ["Basic " ++ String.mk enc] ∧
        decodeStd enc = some (stringBytes (a.Login ++ ":" ++ a.Password))
    | none => req.Header.lookup "Authorization" = none := by
  obtain ⟨xmlBytes, -, hreq⟩ := Call_sent env g _ soapAction request response t req h
  subst hreq
  rw [fill_lookup_Authorization]
  cases auth with
  | none => rfl
  | some a => exact ⟨(basicAuth a.Login a.Password).data, rfl, decodeStd_basicAuth _ _⟩

/-- C9: a call hands at most one request to the transport; when that dispatch fails with
error `e`, `Call` returns `e` (and what the transport returned as response), the dispatch
is the only one, and no body is read or deserialized. -/
theorem Call_single_dispatch {Q R E : Type} (env : Env Q R E) (g : Globals)
    (s : Client Q R E) (soapAction : String) (request : Q) (response : R) :
    dispatchCount (s.Call env g soapAction request response).events ≤ 1 ∧
    ∀ (xmlBytes : Bytes) (ro : Option (Response E)) (e : E),
      s.Marshaller.Marshal { Body := { Fault := none, Content := request } } = (xmlBytes, none) →
      env.urlParse s.url = none →
      env.clientDo (s.transport env)
        (s.fill g soapAction ⟨"POST", s.url, [], xmlBytes, false⟩) = .fail ro e →
      (s.Call env g soapAction request response).err = some (CallError.lib e) ∧
      (s.Call env g soapAction request response).httpResponse = ro ∧
      (s.Call env g soapAction request response).response = response ∧
      dispatchCount (s.Call env g soapAction request response).events = 1 ∧
      ∀ ev ∈ (s.Call env g soapAction request response).events, ev.isBodyUse = false := by
  refine ⟨Call_dispatchCount_le env g s soapAction request response, ?_⟩
  intro xmlBytes ro e hm hu hd
  simp only [Client.Call, NewRequest, hm, hu, hd, true_and]
  refine ⟨?_, ?_⟩
  · simp [dispatchCount, dispatchCount_append, dispatchCount_l]
  · intro ev hev
    simp only [List.mem_append, List.mem_cons, List.mem_singleton, List.not_mem_nil, or_false,
      or_assoc] at hev
    rcases hev with h | h | h | h
    all_goals first
      | (subst h; rfl)
      | (rw [mem_l g _ ev h]; rfl)

/-! ## Where the code departs from its documentation -/

/-- The outcome of a call does not depend on the `Unmarshal` method of the codec. -/
theorem Call_Unmarshal_irrelevant {Q R E : Type} (env : Env Q R E) (g : Globals)
    (s : Client Q R E) (u : Bytes → Envelope R → Envelope R × Option E)
    (soapAction : String) (request : Q) (response : R) :
    Client.Call env g { s with Marshaller := { s.Marshaller with Unmarshal := u } }
      soapAction request response = s.Call env g soapAction request response := rfl

/-- The outcome of a call does not depend on `ClientDialTimeout`. -/
theorem Call_ClientDialTimeout_irrelevant {Q R E : Type} (env : Env Q R E) (g : Globals)
    (s : Client Q R E) (d : Nat) (soapAction : String) (request : Q) (response : R) :
    s.Call env { g with ClientDialTimeout := d } soapAction request response
      = s.Call env g soapAction request response := rfl

/-- C4: a client whose Marshaller field holds a custom codec that decodes every document
without error still reports the error of `xml.Unmarshal` on a body that is not XML, and
leaves the response target as it was: the body went through `xml.Unmarshal`, not through
the codec. -/
theorem Call_bypasses_codec_Unmarshal :
    lenientCodec.Unmarshal (lit "not xml") { Body := { Fault := none, Content := "old" } }
      = ({ Body := { Fault := none, Content := "decoded by the codec" } }, none) ∧
    (Client.Call demoEnv Globals.initial
      { demoClient "garbage" none with Marshaller := lenientCodec } "DoWork" "ping" "old").err
      = some (CallError.lib "XML syntax error") ∧
    (Client.Call demoEnv Globals.initial
      { demoClient "garbage" none with Marshaller := lenientCodec } "DoWork" "ping" "old").response
      = "old" := by
  decide

/-- C10: with no custom transport and `ClientDialTimeout` set to one second, the one
dispatch of a call goes through `http.DefaultTransport`, whose `Dial` hook is unset: the
connection is not made by `dialTimeout`. -/
theorem Call_default_transport_not_dialTimeout :
    (dispatched (Client.Call demoEnv oneSecond (demoClient "ok" none) "DoWork" "ping" "").events).map
      (fun p => (p.1.Dial.isSome, p.1.DialContext.isSome)) = [(false, true)] ∧
    (demoClient "ok" none).tr.isNone = true ∧
    oneSecond.ClientDialTimeout = 1000000000 := by
  decide

/-! ## The statements above on the concrete service -/

/-- The fault exit on the concrete service: the endpoint that answers with a fault. -/
theorem Call_fault_is_error_witness :
    (Client.Call demoEnv Globals.initial (demoClient "fault" none) "DoWork" "ping" "old").err
      = some (CallError.fault demoFault) ∧
    (Client.Call demoEnv Globals.initial (demoClient "fault" none) "DoWork" "ping" "old").err
      ≠ none ∧
    (Client.Call demoEnv Globals.initial (demoClient "fault" none) "DoWork" "ping"
      "old").httpResponse = some ⟨500, [], ⟨lit "<Fault/>", none⟩⟩ ∧
    (Client.Call demoEnv Globals.initial (demoClient "fault" none) "DoWork" "ping"
      "old").response = "half" :=
  Call_fault_is_error demoEnv Globals.initial (demoClient "fault" none) "DoWork" "ping" "old"
    (lit "ping") (lit "<Fault/>") ⟨500, [], ⟨lit "<Fault/>", none⟩⟩
    { Body := { Fault := some demoFault, Content := "half" } } demoFault
    (by decide) (by decide) (by decide) (by decide) (by decide) (by decide) (by decide)

/-- The empty-body exit on the concrete service: the endpoint that answers with no content. -/
theorem Call_empty_body_witness :
    (Client.Call demoEnv Globals.initial (demoClient "empty" none) "DoWork" "ping"
      "old").httpResponse = some ⟨204, [], ⟨[], none⟩⟩ ∧
    (Client.Call demoEnv Globals.initial (demoClient "empty" none) "DoWork" "ping" "old").err
      = none ∧
    (Client.Call demoEnv Globals.initial (demoClient "empty" none) "DoWork" "ping"
      "old").response = "old" ∧
    ∀ ev ∈ (Client.Call demoEnv Globals.initial (demoClient "empty" none) "DoWork" "ping"
      "old").events, ev.isUnmarshal = false :=
  Call_empty_body demoEnv Globals.initial (demoClient "empty" none) "DoWork" "ping" "old"
    (lit "ping") [] ⟨204, [], ⟨[], none⟩⟩
    (by decide) (by decide) (by decide) (by decide) (by decide)

/-- The deserialization-error exit on the concrete service: the endpoint that answers with text that is not XML. -/
theorem Call_malformed_body_witness :
    (Client.Call demoEnv Globals.initial (demoClient "garbage" none) "DoWork" "ping" "old").err
      = some (CallError.lib "XML syntax error") ∧
    (Client.Call demoEnv Globals.initial (demoClient "garbage" none) "DoWork" "ping" "old").err
      ≠ none ∧
    ∀ f : Fault,
      (Client.Call demoEnv Globals.initial (demoClient "garbage" none) "DoWork" "ping" "old").err
        ≠ some (CallError.fault f) :=
  Call_malformed_body demoEnv Globals.initial (demoClient "garbage" none) "DoWork" "ping" "old"
    (lit "ping") (lit "not xml") ⟨200, [], ⟨lit "not xml", none⟩⟩
    { Body := { Fault := none, Content := "old" } } "XML syntax error"
    (by decide) (by decide) (by decide) (by decide) (by decide) (by decide)

/-- The marshalling-error exit on the concrete service: the empty payload cannot be encoded. -/
theorem Call_marshal_failure_witness :
    (Client.Call demoEnv Globals.initial (demoClient "ok" none) "DoWork" "" "old").err
      = some (CallError.lib "xml: unsupported type") ∧
    (Client.Call demoEnv Globals.initial (demoClient "ok" none) "DoWork" "" "old").httpResponse
      = none ∧
    dispatchCount (Client.Call demoEnv Globals.initial (demoClient "ok" none) "DoWork" ""
      "old").events = 0 ∧
    ∀ ev ∈ (Client.Call demoEnv Globals.initial (demoClient "ok" none) "DoWork" ""
      "old").events, ev.isRequest = false :=
  Call_marshal_failure demoEnv Globals.initial (demoClient "ok" none) "DoWork" "" "old" []
    "xml: unsupported type" (by decide)

/-- The response is returned on the concrete service also when reading the body fails. -/
theorem Call_returns_response_witness :
    (Client.Call demoEnv Globals.initial (demoClient "reset" none) "DoWork" "ping"
      "old").httpResponse = some ⟨200, [], ⟨lit "<po", some "unexpected EOF"⟩⟩ :=
  Call_returns_response demoEnv Globals.initial (demoClient "reset" none) "DoWork" "ping" "old"
    (lit "ping") ⟨200, [], ⟨lit "<po", some "unexpected EOF"⟩⟩
    (by decide) (by decide) (by decide)

/-- The SOAPAction header of the request sent for the operation DoWork. -/
theorem Call_SOAPAction_header_witness :
    (((demoClient "ok" none).fill Globals.initial "DoWork"
        ⟨"POST", "http://svc/ok", [], lit "ping", false⟩).Header.lookup "SOAPAction" ≠ none
      ↔ "DoWork" ≠ "") ∧
    ("DoWork" ≠ "" →
      ((demoClient "ok" none).fill Globals.initial "DoWork"
        ⟨"POST", "http://svc/ok", [], lit "ping", false⟩).Header.lookup "SOAPAction"
        = some ["DoWork"]) :=
  Call_SOAPAction_header demoEnv Globals.initial (demoClient "ok" none) "DoWork" "ping" ""
    demoDefaultTransport
    ((demoClient "ok" none).fill Globals.initial "DoWork"
      ⟨"POST", "http://svc/ok", [], lit "ping", false⟩)
    (List.Mem.tail _ (List.Mem.tail _ (List.Mem.head _)))

/-- The Authorization header of the requests sent with the credentials Aladdin and
open sesame (the example of RFC 7617, which needs padding), with alice and secret, and
without credentials. -/
theorem Call_Authorization_header_witness :
    (∃ enc : List Char,
      (Client.fill Globals.initial (demoClient "ok" (some ⟨"Aladdin", "open sesame"⟩)) "DoWork"
        ⟨"POST", "http://svc/ok", [], lit "ping", false⟩).Header.lookup "Authorization"
        = some ["Basic " ++ String.mk enc] ∧
      decodeStd enc = some (stringBytes ("Aladdin" ++ ":" ++ "open sesame"))) ∧
    (Client.fill Globals.initial (demoClient "ok" (some ⟨"Aladdin", "open sesame"⟩)) "DoWork"
      ⟨"POST", "http://svc/ok", [], lit "ping", false⟩).Header.lookup "Authorization"
      = some ["Basic QWxhZGRpbjpvcGVuIHNlc2FtZQ=="] ∧
    (Client.fill Globals.initial (demoClient "ok" (some ⟨"alice", "secret"⟩)) "DoWork"
      ⟨"POST", "http://svc/ok", [], lit "ping", false⟩).Header.lookup "Authorization"
      = some ["Basic YWxpY2U6c2VjcmV0"] ∧
    (Client.fill Globals.initial (demoClient "ok" none) "DoWork"
      ⟨"POST", "http://svc/ok", [], lit "ping", false⟩).Header.lookup "Authorization" = none :=
  ⟨Call_Authorization_header demoEnv Globals.initial "http://svc/ok"
      (some ⟨"Aladdin", "open sesame"⟩) none (newDefaultMarshaller demoEnv) "DoWork" "ping" ""
      demoDefaultTransport
      (Client.fill Globals.initial (demoClient "ok" (some ⟨"Aladdin", "open sesame"⟩)) "DoWork"
        ⟨"POST", "http://svc/ok", [], lit "ping", false⟩)
      (List.Mem.tail _ (List.Mem.tail _ (List.Mem.head _))),
    by decide, by decide,
    Call_Authorization_header demoEnv Globals.initial "http://svc/ok" none none
      (newDefaultMarshaller demoEnv) "DoWork" "ping" "" demoDefaultTransport
      (Client.fill Globals.initial (demoClient "ok" none) "DoWork"
        ⟨"POST", "http://svc/ok", [], lit "ping", false⟩)
      (List.Mem.tail _ (List.Mem.tail _ (List.Mem.head _)))⟩

/-- The transport-error exit on the concrete service: the endpoint that refuses the connection. -/
theorem Call_single_dispatch_witness :
    (Client.Call demoEnv Globals.initial (demoClient "down" none) "DoWork" "ping" "old").err
      = some (CallError.lib "connection refused") ∧
    (Client.Call demoEnv Globals.initial (demoClient "down" none) "DoWork" "ping"
      "old").httpResponse = none ∧
    (Client.Call demoEnv Globals.initial (demoClient "down" none) "DoWork" "ping"
      "old").response = "old" ∧
    dispatchCount (Client.Call demoEnv Globals.initial (demoClient "down" none) "DoWork" "ping"
      "old").events = 1 ∧
    ∀ ev ∈ (Client.Call demoEnv Globals.initial (demoClient "down" none) "DoWork" "ping"
      "old").events, ev.isBodyUse = false :=
  (Call_single_dispatch demoEnv Globals.initial (demoClient "down" none) "DoWork" "ping"
    "old").2 (lit "ping") none "connection refused" (by decide) (by decide) (by decide)

/-- The header of the request for the credentials alice and secret. -/
theorem basicAuth_alice_secret :
    (Client.fill Globals.initial (demoClient "ok" (some ⟨"alice", "secret"⟩)) ""
      ⟨"POST", "http://svc/ok", [], lit "ping", false⟩).Header
      = [("User-Agent", ["go-soap-0.1"]), ("Content-Type", ["text/xml; charset=\"utf-8\""]),
         ("Authorization", ["Basic YWxpY2U6c2VjcmV0"])] := by
  decide

end Soap
